import Mathlib

/-!
Verification of the turn-taking dialogue loops of the AgentScope sample
scripts (`main.py`, `sample1_basic_dialogue.py`, `sample2_with_llm.py`,
`sample3_with_tool.py`, `sample4_multi_agent.py`).

The scripts drive a console user, a model-backed assistant, and (sample 4)
a planner/critic pair through a sequential dialogue loop.  We embed the
loops as functions from the environment (the stream of console lines and
the responder oracles, each of which may raise a Python error at its
suspension point) to the list of observable console events together with
the loop outcome.  External collaborators (the model-serving process, the
console) are parameters; the loop bodies are translated line by line from
the Python sources.
-/

/-- A message exchanged between turn participants (`Msg` of
`agentscope.message`): sender name, body content, role tag. -/
structure Msg where
  name : String
  content : String
  role : String
  deriving Repr, DecidableEq

/-- An error a Python suspension point may raise: an operator interrupt
(`KeyboardInterrupt`) or any other exception carrying a description. -/
inductive PyError where
  | keyboardInterrupt
  | exception (desc : String)
  deriving Repr, DecidableEq

/-- Observable events of a run: the console-input responder rendering a
prior message, each responder invocation (recorded with its input and its
result), and the `print` calls of the scripts. -/
inductive Event where
  | render (m : Msg)
  | userCall (prior : Option Msg) (result : Msg)
  | assistantCall (input result : Msg)
  | plannerCall (input result : Msg)
  | criticCall (input result : Msg)
  | printLine (s : String)
  deriving Repr, DecidableEq

/-- Name of the console user agent in all the scripts (`UserAgent(name="ユーザー")`). -/
def userName : String := "ユーザー"

/-- Modelled from the spec: the console-input responder (the external
framework class `UserAgent`, whose code is not part of this repository).
Per spec section 4.2 it first renders the prior message when one is given,
then prompts and wraps the raw line read from standard input in a message
with role "user"; calling it with no argument behaves as prior = none. -/
def userTurn (prior : Option Msg) (line : String) : List Event × Msg :=
  let m : Msg := ⟨userName, line, "user"⟩
  ((match prior with
    | some p => [Event.render p]
    | none => []) ++ [Event.userCall prior m], m)

/-- Outcome of running a loop against a finite modelled environment:
still awaiting console input beyond the modelled stream, terminated by the
"exit" sentinel, or aborted by a raised error. -/
inductive Outcome where
  | pending
  | terminated
  | raised (e : PyError)
  deriving Repr, DecidableEq

/-- The ping-pong dialogue loop of `main.py` lines 94-107, identical in
`sample2_with_llm.py` lines 201-219 and `sample3_with_tool.py` lines 89-98:

    msg = None
    while True:
        msg = await user_agent(msg)
        if msg.content == "exit":
            print("対話を終了します。")
            break
        msg = await assistant_agent(msg)

Each console read consumes one element of the input stream; an `error`
element is an exception raised while suspended at the console read, and the
assistant responder may itself raise. -/
def dialogueLoopE (respond : Msg → Except PyError Msg) :
    List (Except PyError String) → Option Msg → List Event × Outcome
  | [], _ => ([], Outcome.pending)
  | Except.error e :: _, prior =>
      ((match prior with
        | some p => [Event.render p]
        | none => []), Outcome.raised e)
  | Except.ok line :: rest, prior =>
      let t := userTurn prior line
      if t.2.content = "exit" then
        (t.1 ++ [Event.printLine "対話を終了します。"], Outcome.terminated)
      else
        match respond t.2 with
        | Except.error e => (t.1, Outcome.raised e)
        | Except.ok resp =>
            let cont := dialogueLoopE respond rest (some resp)
            (t.1 ++ Event.assistantCall t.2 resp :: cont.1, cont.2)

/-- Twenty dashes, the Python expression `"-"*20` of sample 4. -/
def sep20 : String := "--------------------"

/-- The request banner printed in sample 4 after a non-exit user message. -/
def requestLine (m : Msg) : String :=
  "\n--- [ユーザー]さんのリクエスト: ---\n" ++ m.content ++ "\n" ++ sep20

/-- Banner printed before the planner call in sample 4. -/
def planningLine : String := "\n--- [プランナー]が計画を立案中... ---"

/-- The plan display of sample 4. -/
def planLine (p : Msg) : String :=
  "\n--- [プランナー]からの計画案: ---\n" ++ p.content ++ "\n" ++ sep20

/-- Banner printed before the critic call in sample 4. -/
def reviewLine : String := "\n--- [クリティック]が計画をレビュー中... ---"

/-- The critique display of sample 4. -/
def critiqueLine (c : Msg) : String :=
  "\n--- [クリティック]からの改善案: ---\n" ++ c.content ++ "\n" ++ sep20

/-- The final display block of a sample 4 round (its lines 329-333). -/
def finalEvents (p c : Msg) : List Event :=
  [Event.printLine "\n★★★ 最終的な提案 ★★★",
   Event.printLine ("【計画案】\n" ++ p.content),
   Event.printLine ("\n【改善案】\n" ++ c.content),
   Event.printLine "★★★★★★★★★★★★★★★★\n",
   Event.printLine "次のタスクを入力してください。(\x27exit\x27で終了)"]

/-- The planner/critic relay loop of `sample4_multi_agent.py` lines 304-333:
`user_agent()` is always called with no argument, the planner consumes the
user message, the critic consumes the plan, and both outputs are printed. -/
def relayLoopE (planner critic : Msg → Except PyError Msg) :
    List (Except PyError String) → List Event × Outcome
  | [] => ([], Outcome.pending)
  | Except.error e :: _ => ([], Outcome.raised e)
  | Except.ok line :: rest =>
      let t := userTurn none line
      if t.2.content = "exit" then
        (t.1 ++ [Event.printLine "対話を終了します。"], Outcome.terminated)
      else
        let head1 := t.1 ++ [Event.printLine (requestLine t.2), Event.printLine planningLine]
        match planner t.2 with
        | Except.error e => (head1, Outcome.raised e)
        | Except.ok plan =>
            let head2 := head1 ++
              [Event.plannerCall t.2 plan, Event.printLine (planLine plan),
               Event.printLine reviewLine]
            match critic plan with
            | Except.error e => (head2, Outcome.raised e)
            | Except.ok critique =>
                let cont := relayLoopE planner critic rest
                (head2 ++ Event.criticCall plan critique ::
                   Event.printLine (critiqueLine critique) ::
                   (finalEvents plan critique ++ cont.1), cont.2)

/-- How the process ends: normally, or killed by an unhandled exception. -/
inductive ProcessExit where
  | normal
  | unhandled (e : PyError)
  deriving Repr, DecidableEq

/-- Message printed by every `except KeyboardInterrupt` handler. -/
def interruptedLine : String := "\nプログラムが中断されました。"

/-- Message printed by the `except Exception as e` handlers of samples 2-4. -/
def errorLine (d : String) : String := "\nエラーが発生しました: " ++ d

/-- The `__main__` guard of sample 2 (lines 222-228) and sample 4 (lines
337-343): `except KeyboardInterrupt` then `except Exception as e`. -/
def guardAll (r : List Event × Outcome) : List Event × ProcessExit :=
  match r.2 with
  | Outcome.raised PyError.keyboardInterrupt =>
      (r.1 ++ [Event.printLine interruptedLine], ProcessExit.normal)
  | Outcome.raised (PyError.exception d) =>
      (r.1 ++ [Event.printLine (errorLine d)], ProcessExit.normal)
  | _ => (r.1, ProcessExit.normal)

/-- The `__main__` guard of `main.py` lines 110-114: only
`except KeyboardInterrupt`; other exceptions propagate and kill the process. -/
def guardKI (r : List Event × Outcome) : List Event × ProcessExit :=
  match r.2 with
  | Outcome.raised PyError.keyboardInterrupt =>
      (r.1 ++ [Event.printLine interruptedLine], ProcessExit.normal)
  | Outcome.raised (PyError.exception d) => (r.1, ProcessExit.unhandled (PyError.exception d))
  | _ => (r.1, ProcessExit.normal)

/-- Whole run of sample 2 (also sample 3): the loop started with `msg = None`
under the two-handler guard. -/
def runSample2 (respond : Msg → Except PyError Msg)
    (inputs : List (Except PyError String)) : List Event × ProcessExit :=
  guardAll (dialogueLoopE respond inputs none)

/-- Whole run of `main.py`: the same loop under the interrupt-only guard. -/
def runMainPy (respond : Msg → Except PyError Msg)
    (inputs : List (Except PyError String)) : List Event × ProcessExit :=
  guardKI (dialogueLoopE respond inputs none)

/-- Whole run of sample 4 under the two-handler guard. -/
def runSample4 (planner critic : Msg → Except PyError Msg)
    (inputs : List (Except PyError String)) : List Event × ProcessExit :=
  guardAll (relayLoopE planner critic inputs)

/-- An environment in which no suspension point raises: a responder given
by a total function. -/
def okResponder (f : Msg → Msg) : Msg → Except PyError Msg := fun m => Except.ok (f m)

/-- An input stream of plain console lines, none of which raises. -/
def okLines (ls : List String) : List (Except PyError String) := ls.map Except.ok

/-- The custom echo agent of `sample1_basic_dialogue.py` lines 29-43:
a display name and a fixed response text set at construction time. -/
structure DialogueAgent where
  name : String
  response_text : String
  deriving Repr, DecidableEq

/-- `DialogueAgent.reply` (sample 1 lines 45-64): print the received
content, return a fresh message with the agent's own name, its fixed
`response_text`, and role "assistant". -/
def DialogueAgent.reply (a : DialogueAgent) (x : Msg) : List Event × Msg :=
  ([Event.printLine ("[" ++ a.name ++ "]がメッセージを受信: \x27" ++ x.content ++ "\x27")],
   (⟨a.name, a.response_text, "assistant"⟩ : Msg))

/-- The user message wrapping the literal line "exit". -/
def exitMsg : Msg := ⟨userName, "exit", "user"⟩

/-- Recognises the invocation of a responder other than the console one. -/
def isModelCall : Event → Bool
  | Event.assistantCall _ _ => true
  | Event.plannerCall _ _ => true
  | Event.criticCall _ _ => true
  | _ => false

/-- `SeqOrd isLate isEarly l` states that every event of `l` recognised by
`isLate` (extracting the input it consumes) is preceded in `l` by an event
accepted by `isEarly` for that input — the earlier turn whose result the
later turn consumes was already complete when the later turn started. -/
def SeqOrd (isLate : Event → Option Msg) (isEarly : Msg → Event → Prop)
    (l : List Event) : Prop :=
  ∀ pre e post x, l = pre ++ e :: post → isLate e = some x →
    ∃ pre1 e1 post1, pre = pre1 ++ e1 :: post1 ∧ isEarly x e1

/-- The input consumed by a critic invocation. -/
def criticInput : Event → Option Msg
  | Event.criticCall i _ => some i
  | _ => none

/-- Accepts the planner invocation that produced `x`. -/
def plannerOutput (x : Msg) : Event → Prop
  | Event.plannerCall _ r => r = x
  | _ => False

/-- The input consumed by a planner invocation. -/
def plannerInput : Event → Option Msg
  | Event.plannerCall i _ => some i
  | _ => none

/-- The input consumed by an assistant invocation. -/
def assistantInput : Event → Option Msg
  | Event.assistantCall i _ => some i
  | _ => none

/-- Accepts the console invocation that produced `x`. -/
def userOutput (x : Msg) : Event → Prop
  | Event.userCall _ r => r = x
  | _ => False

/-- Demonstration responders used to instantiate theorems on concrete runs. -/
def demoAssistant : Msg → Msg := fun m => ⟨"アシスタント", "応答:" ++ m.content, "assistant"⟩

/-- Demonstration planner for concrete runs. -/
def demoPlanner : Msg → Msg := fun m => ⟨"プランナー", "計画:" ++ m.content, "assistant"⟩

/-- Demonstration critic for concrete runs. -/
def demoCritic : Msg → Msg := fun m => ⟨"クリティック", "批評:" ++ m.content, "assistant"⟩

/-- A responder whose external call always fails. -/
def failingResponder (e : PyError) : Msg → Except PyError Msg := fun _ => Except.error e

/-- C1: a message obtained from the console-input responder halts the loop
exactly when its content is the literal string "exit": on "exit" the loop
prints the termination message and stops without touching the rest of the
input, and on any other line (such as "Exit" or " exit ") it instead
forwards the message to the assistant responder and keeps looping. -/
theorem exit_sentinel_exact (f : Msg → Msg) (line : String)
    (rest : List (Except PyError String)) (prior : Option Msg) :
    (line = "exit" →
      dialogueLoopE (okResponder f) (Except.ok line :: rest) prior =
        ((userTurn prior line).1 ++ [Event.printLine "対話を終了します。"], Outcome.terminated)) ∧
    (line ≠ "exit" →
      dialogueLoopE (okResponder f) (Except.ok line :: rest) prior =
        ((userTurn prior line).1 ++
            Event.assistantCall (userTurn prior line).2 (f (userTurn prior line).2) ::
            (dialogueLoopE (okResponder f) rest (some (f (userTurn prior line).2))).1,
         (dialogueLoopE (okResponder f) rest (some (f (userTurn prior line).2))).2)) := by
  constructor
  · intro h
    subst h
    simp [dialogueLoopE, userTurn]
  · intro h
    simp [dialogueLoopE, userTurn, okResponder, h]

/-- Witness for C1 at the concrete lines "exit", "Exit" and " exit ". -/
theorem exit_sentinel_exact_witness :
    dialogueLoopE (okResponder demoAssistant) [Except.ok "exit"] none =
      ((userTurn none "exit").1 ++ [Event.printLine "対話を終了します。"], Outcome.terminated) ∧
    dialogueLoopE (okResponder demoAssistant) [Except.ok "Exit"] none =
      ((userTurn none "Exit").1 ++
          Event.assistantCall (userTurn none "Exit").2 (demoAssistant (userTurn none "Exit").2) ::
          (dialogueLoopE (okResponder demoAssistant) []
            (some (demoAssistant (userTurn none "Exit").2))).1,
       (dialogueLoopE (okResponder demoAssistant) []
          (some (demoAssistant (userTurn none "Exit").2))).2) ∧
    dialogueLoopE (okResponder demoAssistant) [Except.ok " exit "] none =
      ((userTurn none " exit ").1 ++
          Event.assistantCall (userTurn none " exit ").2 (demoAssistant (userTurn none " exit ").2) ::
          (dialogueLoopE (okResponder demoAssistant) []
            (some (demoAssistant (userTurn none " exit ").2))).1,
       (dialogueLoopE (okResponder demoAssistant) []
          (some (demoAssistant (userTurn none " exit ").2))).2) :=
  ⟨(exit_sentinel_exact demoAssistant "exit" [] none).1 rfl,
   (exit_sentinel_exact demoAssistant "Exit" [] none).2 (by decide),
   (exit_sentinel_exact demoAssistant " exit " [] none).2 (by decide)⟩

/-- C2: the echo responder of sample 1 replies with its fixed configured
response text, whatever the incoming message is: the reply content equals
`response_text`, and two inputs always yield the same reply. -/
theorem reply_fixed_response (a : DialogueAgent) (x : Msg) :
    (DialogueAgent.reply a x).2.content = a.response_text ∧
    ∀ y : Msg, (DialogueAgent.reply a x).2 = (DialogueAgent.reply a y).2 :=
  ⟨rfl, fun _ => rfl⟩

/-- C10: the echo responder of sample 1 stamps its reply with role
"assistant" and with its own configured name, not the incoming sender. -/
theorem reply_role_and_name (a : DialogueAgent) (x : Msg) :
    (DialogueAgent.reply a x).2.role = "assistant" ∧
    (DialogueAgent.reply a x).2.name = a.name :=
  ⟨rfl, rfl⟩

/-- C3: when the very first console line is "exit", every variant prints
the termination message and stops with a two-event trace that contains no
model-backed responder invocation at all. -/
theorem first_exit_no_responder_call (f planner critic : Msg → Except PyError Msg)
    (rest rest4 restM : List (Except PyError String)) :
    runSample2 f (Except.ok "exit" :: rest) =
      ([Event.userCall none exitMsg, Event.printLine "対話を終了します。"], ProcessExit.normal) ∧
    runMainPy f (Except.ok "exit" :: restM) =
      ([Event.userCall none exitMsg, Event.printLine "対話を終了します。"], ProcessExit.normal) ∧
    runSample4 planner critic (Except.ok "exit" :: rest4) =
      ([Event.userCall none exitMsg, Event.printLine "対話を終了します。"], ProcessExit.normal) ∧
    (runSample2 f (Except.ok "exit" :: rest)).1.filter isModelCall = [] ∧
    (runMainPy f (Except.ok "exit" :: restM)).1.filter isModelCall = [] ∧
    (runSample4 planner critic (Except.ok "exit" :: rest4)).1.filter isModelCall = [] := by
  refine ⟨?_, ?_, ?_, ?_, ?_, ?_⟩ <;>
    simp [runSample2, runMainPy, runSample4, guardAll, guardKI, dialogueLoopE, relayLoopE,
      userTurn, exitMsg, isModelCall]

/-- Every console invocation in the sample 4 relay is made with no prior
message: `user_agent()` is only ever called with no argument. -/
theorem relay_userCall_none (planner critic : Msg → Except PyError Msg) :
    ∀ (inputs : List (Except PyError String)) (q : Option Msg) (r : Msg),
      Event.userCall q r ∈ (relayLoopE planner critic inputs).1 → q = none := by
  intro inputs
  induction inputs with
  | nil => intro q r h; simp [relayLoopE] at h
  | cons i rest ih =>
    intro q r h
    match i with
    | Except.error e => simp [relayLoopE] at h
    | Except.ok line =>
      by_cases hl : line = "exit"
      · subst hl
        simp [relayLoopE, userTurn] at h
        exact h.1
      · rcases hp : planner ⟨userName, line, "user"⟩ with e | plan
        · simp [relayLoopE, userTurn, hl, hp] at h
          exact h.1
        · rcases hc : critic plan with e | critique
          · simp [relayLoopE, userTurn, hl, hp, hc] at h
            exact h.1
          · simp [relayLoopE, userTurn, hl, hp, hc, finalEvents] at h
            rcases h with h | h
            · exact h.1
            · exact ih q r h

/-- C4: a sample 4 round on a non-"exit" task `line` invokes the planner
with the user message, invokes the critic with the plan (not with the
user message), prints both the plan and the critique, and every console
prompt of the relay is issued with no prior message attached. -/
theorem relay_round_flow (pl cr : Msg → Msg) (line : String)
    (rest : List (Except PyError String)) (h : line ≠ "exit") :
    relayLoopE (okResponder pl) (okResponder cr) (Except.ok line :: rest) =
      (Event.userCall none (⟨userName, line, "user"⟩ : Msg) ::
        Event.printLine (requestLine ⟨userName, line, "user"⟩) ::
        Event.printLine planningLine ::
        Event.plannerCall ⟨userName, line, "user"⟩ (pl ⟨userName, line, "user"⟩) ::
        Event.printLine (planLine (pl ⟨userName, line, "user"⟩)) ::
        Event.printLine reviewLine ::
        Event.criticCall (pl ⟨userName, line, "user"⟩) (cr (pl ⟨userName, line, "user"⟩)) ::
        Event.printLine (critiqueLine (cr (pl ⟨userName, line, "user"⟩))) ::
        (finalEvents (pl ⟨userName, line, "user"⟩) (cr (pl ⟨userName, line, "user"⟩)) ++
          (relayLoopE (okResponder pl) (okResponder cr) rest).1),
       (relayLoopE (okResponder pl) (okResponder cr) rest).2) ∧
    (∀ (plE crE : Msg → Except PyError Msg) (inputs : List (Except PyError String))
        (q : Option Msg) (r : Msg),
      Event.userCall q r ∈ (relayLoopE plE crE inputs).1 → q = none) := by
  refine ⟨?_, fun plE crE => relay_userCall_none plE crE⟩
  simp [relayLoopE, userTurn, okResponder, h]

/-- Witness for C4 on the concrete task "旅行". -/
theorem relay_round_flow_witness :
    relayLoopE (okResponder demoPlanner) (okResponder demoCritic) [Except.ok "旅行"] =
      (Event.userCall none (⟨userName, "旅行", "user"⟩ : Msg) ::
        Event.printLine (requestLine ⟨userName, "旅行", "user"⟩) ::
        Event.printLine planningLine ::
        Event.plannerCall ⟨userName, "旅行", "user"⟩ (demoPlanner ⟨userName, "旅行", "user"⟩) ::
        Event.printLine (planLine (demoPlanner ⟨userName, "旅行", "user"⟩)) ::
        Event.printLine reviewLine ::
        Event.criticCall (demoPlanner ⟨userName, "旅行", "user"⟩)
          (demoCritic (demoPlanner ⟨userName, "旅行", "user"⟩)) ::
        Event.printLine (critiqueLine (demoCritic (demoPlanner ⟨userName, "旅行", "user"⟩))) ::
        (finalEvents (demoPlanner ⟨userName, "旅行", "user"⟩)
            (demoCritic (demoPlanner ⟨userName, "旅行", "user"⟩)) ++
          (relayLoopE (okResponder demoPlanner) (okResponder demoCritic) []).1),
       (relayLoopE (okResponder demoPlanner) (okResponder demoCritic) []).2) :=
  (relay_round_flow demoPlanner demoCritic "旅行" [] (by decide)).1

/-- After any non-raising console line, the ping-pong loop trace starts
with the console turn for that line. -/
theorem dialogue_ok_head (f : Msg → Msg) (line : String)
    (rest : List (Except PyError String)) (prior : Option Msg) :
    ∃ tail, (dialogueLoopE (okResponder f) (Except.ok line :: rest) prior).1 =
      (userTurn prior line).1 ++ tail := by
  by_cases hl : line = "exit"
  · subst hl
    exact ⟨[Event.printLine "対話を終了します。"], by simp [dialogueLoopE, userTurn]⟩
  · exact ⟨Event.assistantCall ⟨userName, line, "user"⟩ (f ⟨userName, line, "user"⟩) ::
      (dialogueLoopE (okResponder f) rest (some (f ⟨userName, line, "user"⟩))).1,
      by simp [dialogueLoopE, userTurn, okResponder, hl]⟩

/-- C5: in the ping-pong variant, after a non-"exit" user line the
assistant's reply becomes the loop's current message: the loop continues
on the remaining input with that reply as state, the round trace records
the assistant call, and at the start of the next iteration the console
responder is invoked with the reply as its prior message (rendering it
before the next prompt). -/
theorem reply_carried_forward (f : Msg → Msg) (line line2 : String)
    (rest : List (Except PyError String)) (prior : Option Msg) (h : line ≠ "exit") :
    (dialogueLoopE (okResponder f) (Except.ok line :: rest) prior).2 =
      (dialogueLoopE (okResponder f) rest (some (f ⟨userName, line, "user"⟩))).2 ∧
    (dialogueLoopE (okResponder f) (Except.ok line :: rest) prior).1 =
      (userTurn prior line).1 ++
        Event.assistantCall ⟨userName, line, "user"⟩ (f ⟨userName, line, "user"⟩) ::
        (dialogueLoopE (okResponder f) rest (some (f ⟨userName, line, "user"⟩))).1 ∧
    ∃ tail,
      (dialogueLoopE (okResponder f) (Except.ok line :: Except.ok line2 :: rest) prior).1 =
        (userTurn prior line).1 ++
          Event.assistantCall ⟨userName, line, "user"⟩ (f ⟨userName, line, "user"⟩) ::
          Event.render (f ⟨userName, line, "user"⟩) ::
          Event.userCall (some (f ⟨userName, line, "user"⟩)) (⟨userName, line2, "user"⟩ : Msg) ::
          tail := by
  refine ⟨?_, ?_, ?_⟩
  · simp [dialogueLoopE, userTurn, okResponder, h]
  · simp [dialogueLoopE, userTurn, okResponder, h]
  · obtain ⟨tail, htail⟩ := dialogue_ok_head f line2 rest (some (f ⟨userName, line, "user"⟩))
    refine ⟨tail, ?_⟩
    have h2 : (dialogueLoopE (okResponder f)
        (Except.ok line :: Except.ok line2 :: rest) prior).1 =
        (userTurn prior line).1 ++
          Event.assistantCall ⟨userName, line, "user"⟩ (f ⟨userName, line, "user"⟩) ::
          (dialogueLoopE (okResponder f) (Except.ok line2 :: rest)
            (some (f ⟨userName, line, "user"⟩))).1 := by
      simp [dialogueLoopE, userTurn, okResponder, h]
    rw [h2, htail]
    simp [userTurn]

/-- Witness for C5 on the concrete line "やあ" followed by "exit". -/
theorem reply_carried_forward_witness :
    (dialogueLoopE (okResponder demoAssistant)
        [Except.ok "やあ", Except.ok "exit"] none).1 =
      (userTurn none "やあ").1 ++
        Event.assistantCall ⟨userName, "やあ", "user"⟩ (demoAssistant ⟨userName, "やあ", "user"⟩) ::
        (dialogueLoopE (okResponder demoAssistant) [Except.ok "exit"]
          (some (demoAssistant ⟨userName, "やあ", "user"⟩))).1 :=
  (reply_carried_forward demoAssistant "やあ" "exit" [Except.ok "exit"] none (by decide)).2.1

/-- The two-handler guard only ever appends events after the loop trace. -/
theorem guardAll_fst (r : List Event × Outcome) :
    ∃ s, (guardAll r).1 = r.1 ++ s := by
  rcases r with ⟨evs, o⟩
  rcases o with _ | _ | e
  · exact ⟨[], by simp [guardAll]⟩
  · exact ⟨[], by simp [guardAll]⟩
  · rcases e with _ | d
    · exact ⟨[Event.printLine interruptedLine], rfl⟩
    · exact ⟨[Event.printLine (errorLine d)], rfl⟩

/-- The interrupt-only guard only ever appends events after the loop trace. -/
theorem guardKI_fst (r : List Event × Outcome) :
    ∃ s, (guardKI r).1 = r.1 ++ s := by
  rcases r with ⟨evs, o⟩
  rcases o with _ | _ | e
  · exact ⟨[], by simp [guardKI]⟩
  · exact ⟨[], by simp [guardKI]⟩
  · rcases e with _ | d
    · exact ⟨[Event.printLine interruptedLine], rfl⟩
    · exact ⟨[], by simp [guardKI]⟩

/-- The ping-pong loop's first event on a console line is the console
invocation with the prior it was started with. -/
theorem dialogue_first_event (respond : Msg → Except PyError Msg) (line : String)
    (rest : List (Except PyError String)) :
    ∃ t, (dialogueLoopE respond (Except.ok line :: rest) none).1 =
      Event.userCall none (⟨userName, line, "user"⟩ : Msg) :: t := by
  by_cases hl : line = "exit"
  · subst hl
    exact ⟨[Event.printLine "対話を終了します。"], by simp [dialogueLoopE, userTurn]⟩
  · rcases hr : respond ⟨userName, line, "user"⟩ with e | resp
    · exact ⟨[], by simp [dialogueLoopE, userTurn, hl, hr]⟩
    · exact ⟨Event.assistantCall ⟨userName, line, "user"⟩ resp ::
        (dialogueLoopE respond rest (some resp)).1,
        by simp [dialogueLoopE, userTurn, hl, hr]⟩

/-- The relay loop's first event on a console line is the console
invocation with no prior message. -/
theorem relay_first_event (planner critic : Msg → Except PyError Msg) (line : String)
    (rest : List (Except PyError String)) :
    ∃ t, (relayLoopE planner critic (Except.ok line :: rest)).1 =
      Event.userCall none (⟨userName, line, "user"⟩ : Msg) :: t := by
  by_cases hl : line = "exit"
  · subst hl
    exact ⟨[Event.printLine "対話を終了します。"], by simp [relayLoopE, userTurn]⟩
  · rcases hp : planner ⟨userName, line, "user"⟩ with e | plan
    · exact ⟨[Event.printLine (requestLine ⟨userName, line, "user"⟩),
        Event.printLine planningLine], by simp [relayLoopE, userTurn, hl, hp]⟩
    · rcases hc : critic plan with e | critique
      · exact ⟨[Event.printLine (requestLine ⟨userName, line, "user"⟩),
          Event.printLine planningLine, Event.plannerCall ⟨userName, line, "user"⟩ plan,
          Event.printLine (planLine plan), Event.printLine reviewLine],
          by simp [relayLoopE, userTurn, hl, hp, hc]⟩
      · exact ⟨Event.printLine (requestLine ⟨userName, line, "user"⟩) ::
          Event.printLine planningLine :: Event.plannerCall ⟨userName, line, "user"⟩ plan ::
          Event.printLine (planLine plan) :: Event.printLine reviewLine ::
          Event.criticCall plan critique :: Event.printLine (critiqueLine critique) ::
          (finalEvents plan critique ++ (relayLoopE planner critic rest).1),
          by simp [relayLoopE, userTurn, hl, hp, hc]⟩

/-- C6: in every variant the loop starts with no current message: the
first console invocation of a run is made with no prior message. -/
theorem first_prompt_no_prior (f planner critic : Msg → Except PyError Msg) (line : String)
    (rest rest4 restM : List (Except PyError String)) :
    (∃ t, (runSample2 f (Except.ok line :: rest)).1 =
        Event.userCall none (⟨userName, line, "user"⟩ : Msg) :: t) ∧
    (∃ t, (runMainPy f (Except.ok line :: restM)).1 =
        Event.userCall none (⟨userName, line, "user"⟩ : Msg) :: t) ∧
    (∃ t, (runSample4 planner critic (Except.ok line :: rest4)).1 =
        Event.userCall none (⟨userName, line, "user"⟩ : Msg) :: t) := by
  refine ⟨?_, ?_, ?_⟩
  · obtain ⟨t, ht⟩ := dialogue_first_event f line rest
    obtain ⟨s, hs⟩ := guardAll_fst (dialogueLoopE f (Except.ok line :: rest) none)
    refine ⟨t ++ s, ?_⟩
    simp only [runSample2]
    rw [hs, ht]
    simp
  · obtain ⟨t, ht⟩ := dialogue_first_event f line restM
    obtain ⟨s, hs⟩ := guardKI_fst (dialogueLoopE f (Except.ok line :: restM) none)
    refine ⟨t ++ s, ?_⟩
    simp only [runMainPy]
    rw [hs, ht]
    simp
  · obtain ⟨t, ht⟩ := relay_first_event planner critic line rest4
    obtain ⟨s, hs⟩ := guardAll_fst (relayLoopE planner critic (Except.ok line :: rest4))
    refine ⟨t ++ s, ?_⟩
    simp only [runSample4]
    rw [hs, ht]
    simp

/-- An error raised at the console suspension point after any number of
completed non-"exit" rounds propagates out of the ping-pong loop: the loop
performs no local recovery. -/
theorem loop_reaches_error (g : Msg → Msg) (lines : List String) (e : PyError)
    (rest : List (Except PyError String)) (prior : Option Msg)
    (hlines : ∀ l ∈ lines, l ≠ "exit") :
    (dialogueLoopE (okResponder g) (okLines lines ++ Except.error e :: rest) prior).2 =
      Outcome.raised e := by
  revert hlines
  induction lines generalizing prior with
  | nil =>
    intro _
    rcases prior with _ | p <;> simp [okLines, dialogueLoopE]
  | cons l ls ih =>
    intro hlines
    have hl : l ≠ "exit" := hlines l (List.mem_cons_self l ls)
    have hls : ∀ x ∈ ls, x ≠ "exit" := fun x hx => hlines x (List.mem_cons_of_mem l hx)
    simp only [okLines, List.map_cons, List.cons_append]
    simp [dialogueLoopE, userTurn, okResponder, hl]
    simpa [okLines] using ih (some (g ⟨userName, l, "user"⟩)) hls

/-- C8: an operator interrupt raised at a suspension point of the loop
propagates to the outermost `__main__` scope of each script, where the
`except KeyboardInterrupt` handler prints the interruption message as the
final event and the process exits normally without resuming the loop. -/
theorem interrupt_caught_outermost (f planner critic : Msg → Except PyError Msg)
    (inputs inputs4 inputsM : List (Except PyError String))
    (g : Msg → Msg) (lines : List String) (rest : List (Except PyError String))
    (h2 : (dialogueLoopE f inputs none).2 = Outcome.raised PyError.keyboardInterrupt)
    (h4 : (relayLoopE planner critic inputs4).2 = Outcome.raised PyError.keyboardInterrupt)
    (hM : (dialogueLoopE f inputsM none).2 = Outcome.raised PyError.keyboardInterrupt)
    (hlines : ∀ l ∈ lines, l ≠ "exit") :
    runSample2 f inputs =
      ((dialogueLoopE f inputs none).1 ++ [Event.printLine interruptedLine],
       ProcessExit.normal) ∧
    runSample4 planner critic inputs4 =
      ((relayLoopE planner critic inputs4).1 ++ [Event.printLine interruptedLine],
       ProcessExit.normal) ∧
    runMainPy f inputsM =
      ((dialogueLoopE f inputsM none).1 ++ [Event.printLine interruptedLine],
       ProcessExit.normal) ∧
    (dialogueLoopE (okResponder g)
        (okLines lines ++ Except.error PyError.keyboardInterrupt :: rest) none).2 =
      Outcome.raised PyError.keyboardInterrupt := by
  refine ⟨?_, ?_, ?_, loop_reaches_error g lines _ rest none hlines⟩
  · simp [runSample2, guardAll, h2]
  · simp [runSample4, guardAll, h4]
  · simp [runMainPy, guardKI, hM]

/-- Witness for C8: an interrupt raised while awaiting the second console
line of sample 2 after one completed round. -/
theorem interrupt_caught_outermost_witness :
    runSample2 (okResponder demoAssistant)
        [Except.ok "こんにちは", Except.error PyError.keyboardInterrupt] =
      ((dialogueLoopE (okResponder demoAssistant)
          [Except.ok "こんにちは", Except.error PyError.keyboardInterrupt] none).1 ++
        [Event.printLine interruptedLine], ProcessExit.normal) :=
  (interrupt_caught_outermost (okResponder demoAssistant) (okResponder demoPlanner)
    (okResponder demoCritic)
    [Except.ok "こんにちは", Except.error PyError.keyboardInterrupt]
    [Except.error PyError.keyboardInterrupt] [Except.error PyError.keyboardInterrupt]
    demoAssistant ["こんにちは"] []
    (by decide) (by decide) (by decide) (by decide)).1

/-- C9: a non-interrupt error during a responder turn is caught by the
generic `except Exception` handler of samples 2 and 4, which prints a
generic message containing the error description and exits normally; in
`main.py` there is no such handler, so the error leaves the process as an
unhandled exception.  In every case the trace stops at the failed turn:
nothing is retried or resumed after the error. -/
theorem model_error_handling (f planner critic : Msg → Except PyError Msg)
    (inputs inputs4 inputsM : List (Except PyError String)) (d d4 dM : String)
    (h2 : (dialogueLoopE f inputs none).2 = Outcome.raised (PyError.exception d))
    (h4 : (relayLoopE planner critic inputs4).2 = Outcome.raised (PyError.exception d4))
    (hM : (dialogueLoopE f inputsM none).2 = Outcome.raised (PyError.exception dM)) :
    runSample2 f inputs =
      ((dialogueLoopE f inputs none).1 ++ [Event.printLine (errorLine d)],
       ProcessExit.normal) ∧
    runSample4 planner critic inputs4 =
      ((relayLoopE planner critic inputs4).1 ++ [Event.printLine (errorLine d4)],
       ProcessExit.normal) ∧
    runMainPy f inputsM =
      ((dialogueLoopE f inputsM none).1, ProcessExit.unhandled (PyError.exception dM)) := by
  refine ⟨?_, ?_, ?_⟩
  · simp [runSample2, guardAll, h2]
  · simp [runSample4, guardAll, h4]
  · simp [runMainPy, guardKI, hM]

/-- Witness for C9: a failing model call on the first turn, unhandled in
`main.py`. -/
theorem model_error_handling_witness :
    runMainPy (failingResponder (PyError.exception "モデル呼び出し失敗"))
        [Except.ok "こんにちは"] =
      ((dialogueLoopE (failingResponder (PyError.exception "モデル呼び出し失敗"))
          [Except.ok "こんにちは"] none).1,
       ProcessExit.unhandled (PyError.exception "モデル呼び出し失敗")) :=
  (model_error_handling (failingResponder (PyError.exception "モデル呼び出し失敗"))
    (failingResponder (PyError.exception "モデル呼び出し失敗")) (okResponder demoCritic)
    [Except.ok "こんにちは"] [Except.ok "タスク"] [Except.ok "こんにちは"]
    "モデル呼び出し失敗" "モデル呼び出し失敗" "モデル呼び出し失敗"
    (by decide) (by decide) (by decide)).2.2

/-- A list with no late-turn event is trivially sequentially ordered. -/
theorem seqOrd_of_no_late (isLate : Event → Option Msg) (isEarly : Msg → Event → Prop)
    (l : List Event) (h : ∀ e ∈ l, isLate e = none) : SeqOrd isLate isEarly l := by
  intro pre e post x hl hx
  have he : e ∈ l := hl ▸ List.mem_append_right pre (List.mem_cons_self e post)
  rw [h e he] at hx
  cases hx

/-- Sequential ordering is preserved by concatenation of traces. -/
theorem seqOrd_append {isLate : Event → Option Msg} {isEarly : Msg → Event → Prop}
    {l1 l2 : List Event} (h1 : SeqOrd isLate isEarly l1) (h2 : SeqOrd isLate isEarly l2) :
    SeqOrd isLate isEarly (l1 ++ l2) := by
  intro pre e post x hl hx
  rcases List.append_eq_append_iff.mp hl with ⟨a, ha1, ha2⟩ | ⟨c, hc1, hc2⟩
  · obtain ⟨p1, e1, q1, hp, hearly⟩ := h2 a e post x ha2 hx
    refine ⟨l1 ++ p1, e1, q1, ?_, hearly⟩
    rw [ha1, hp]
    simp
  · cases c with
    | nil =>
      obtain ⟨p1, e1, q1, hp, hearly⟩ := h2 [] e post x (by simpa using hc2.symm) hx
      simp at hp
    | cons y c2 =>
      injection hc2 with hy hpost
      subst hy
      exact h1 pre e c2 x hc1 hx

/-- A trace made of a block `A` with the early turn, the single late event
`e`, and a block `B`, neither block holding a late event, is sequentially
ordered. -/
theorem seqOrd_single {isLate : Event → Option Msg} {isEarly : Msg → Event → Prop}
    {A B : List Event} {e : Event} {x : Msg}
    (hA : ∀ f ∈ A, isLate f = none) (hB : ∀ f ∈ B, isLate f = none)
    (he : isLate e = some x) (hw : ∃ e1 ∈ A, isEarly x e1) :
    SeqOrd isLate isEarly (A ++ e :: B) := by
  intro pre f post y hl hy
  rcases List.append_eq_append_iff.mp hl.symm with ⟨a, ha1, ha2⟩ | ⟨c, hc1, hc2⟩
  · cases a with
    | nil =>
      obtain ⟨hf, hpost⟩ : f = e ∧ post = B := by simpa using ha2
      subst hf
      have hxy : x = y := by
        rw [he] at hy
        exact Option.some.inj hy
      subst hxy
      obtain ⟨e1, he1, hearly⟩ := hw
      obtain ⟨s, t, hst⟩ := List.append_of_mem he1
      refine ⟨s, e1, t, ?_, hearly⟩
      rw [show pre = A by simpa using ha1.symm]
      exact hst
    | cons y2 a2 =>
      injection ha2 with hy2 hrest
      subst hy2
      have hf : f ∈ A := by
        rw [ha1]
        exact List.mem_append_right pre (List.mem_cons_self f a2)
      rw [hA f hf] at hy
      cases hy
  · cases c with
    | nil =>
      obtain ⟨hf, hpost⟩ : e = f ∧ B = post := by simpa using hc2
      subst hf
      have hxy : x = y := by
        rw [he] at hy
        exact Option.some.inj hy
      subst hxy
      obtain ⟨e1, he1, hearly⟩ := hw
      obtain ⟨s, t, hst⟩ := List.append_of_mem he1
      refine ⟨s, e1, t, ?_, hearly⟩
      rw [show pre = A by simpa using hc1]
      exact hst
    | cons y2 c2 =>
      injection hc2 with hy2 hrest
      subst hy2
      have hf : f ∈ B := by
        rw [hrest]
        exact List.mem_append_right c2 (List.mem_cons_self f post)
      rw [hB f hf] at hy
      cases hy

/-- In every sample 4 trace, each critic invocation is preceded by the
planner invocation that produced the critic's input. -/
theorem relay_seqOrd_critic (planner critic : Msg → Except PyError Msg)
    (inputs : List (Except PyError String)) :
    SeqOrd criticInput plannerOutput (relayLoopE planner critic inputs).1 := by
  induction inputs with
  | nil =>
    apply seqOrd_of_no_late
    intro f hf
    simp [relayLoopE] at hf
  | cons i rest ih =>
    match i with
    | Except.error e =>
      apply seqOrd_of_no_late
      intro f hf
      simp [relayLoopE] at hf
    | Except.ok line =>
      by_cases hl : line = "exit"
      · subst hl
        apply seqOrd_of_no_late
        intro f hf
        simp [relayLoopE, userTurn] at hf
        rcases hf with rfl | rfl <;> rfl
      · rcases hp : planner ⟨userName, line, "user"⟩ with e | plan
        · apply seqOrd_of_no_late
          intro f hf
          simp [relayLoopE, userTurn, hl, hp] at hf
          rcases hf with rfl | rfl | rfl <;> rfl
        · rcases hc : critic plan with e | critique
          · apply seqOrd_of_no_late
            intro f hf
            simp [relayLoopE, userTurn, hl, hp, hc] at hf
            rcases hf with rfl | rfl | rfl | rfl | rfl | rfl <;> rfl
          · have htr : (relayLoopE planner critic (Except.ok line :: rest)).1 =
                ([Event.userCall none ⟨userName, line, "user"⟩,
                  Event.printLine (requestLine ⟨userName, line, "user"⟩),
                  Event.printLine planningLine,
                  Event.plannerCall ⟨userName, line, "user"⟩ plan,
                  Event.printLine (planLine plan),
                  Event.printLine reviewLine] ++
                 Event.criticCall plan critique ::
                  (Event.printLine (critiqueLine critique) :: finalEvents plan critique)) ++
                (relayLoopE planner critic rest).1 := by
              simp [relayLoopE, userTurn, hl, hp, hc]
            rw [htr]
            refine seqOrd_append (seqOrd_single ?_ ?_ rfl ?_) ih
            · intro f hf
              simp at hf
              rcases hf with rfl | rfl | rfl | rfl | rfl | rfl <;> rfl
            · intro f hf
              simp [finalEvents] at hf
              rcases hf with rfl | rfl | rfl | rfl | rfl | rfl <;> rfl
            · exact ⟨Event.plannerCall ⟨userName, line, "user"⟩ plan, by simp, rfl⟩

/-- In every sample 4 trace, each planner invocation is preceded by the
console invocation that produced the planner's input. -/
theorem relay_seqOrd_planner (planner critic : Msg → Except PyError Msg)
    (inputs : List (Except PyError String)) :
    SeqOrd plannerInput userOutput (relayLoopE planner critic inputs).1 := by
  induction inputs with
  | nil =>
    apply seqOrd_of_no_late
    intro f hf
    simp [relayLoopE] at hf
  | cons i rest ih =>
    match i with
    | Except.error e =>
      apply seqOrd_of_no_late
      intro f hf
      simp [relayLoopE] at hf
    | Except.ok line =>
      by_cases hl : line = "exit"
      · subst hl
        apply seqOrd_of_no_late
        intro f hf
        simp [relayLoopE, userTurn] at hf
        rcases hf with rfl | rfl <;> rfl
      · rcases hp : planner ⟨userName, line, "user"⟩ with e | plan
        · apply seqOrd_of_no_late
          intro f hf
          simp [relayLoopE, userTurn, hl, hp] at hf
          rcases hf with rfl | rfl | rfl <;> rfl
        · rcases hc : critic plan with e | critique
          · have htr : (relayLoopE planner critic (Except.ok line :: rest)).1 =
                [Event.userCall none ⟨userName, line, "user"⟩,
                 Event.printLine (requestLine ⟨userName, line, "user"⟩),
                 Event.printLine planningLine] ++
                Event.plannerCall ⟨userName, line, "user"⟩ plan ::
                 [Event.printLine (planLine plan), Event.printLine reviewLine] := by
              simp [relayLoopE, userTurn, hl, hp, hc]
            rw [htr]
            refine seqOrd_single ?_ ?_ rfl ?_
            · intro f hf
              simp at hf
              rcases hf with rfl | rfl | rfl <;> rfl
            · intro f hf
              simp at hf
              rcases hf with rfl | rfl <;> rfl
            · exact ⟨Event.userCall none ⟨userName, line, "user"⟩, by simp, rfl⟩
          · have htr : (relayLoopE planner critic (Except.ok line :: rest)).1 =
                ([Event.userCall none ⟨userName, line, "user"⟩,
                  Event.printLine (requestLine ⟨userName, line, "user"⟩),
                  Event.printLine planningLine] ++
                 Event.plannerCall ⟨userName, line, "user"⟩ plan ::
                  (Event.printLine (planLine plan) :: Event.printLine reviewLine ::
                   Event.criticCall plan critique ::
                   Event.printLine (critiqueLine critique) :: finalEvents plan critique)) ++
                (relayLoopE planner critic rest).1 := by
              simp [relayLoopE, userTurn, hl, hp, hc]
            rw [htr]
            refine seqOrd_append (seqOrd_single ?_ ?_ rfl ?_) ih
            · intro f hf
              simp at hf
              rcases hf with rfl | rfl | rfl <;> rfl
            · intro f hf
              simp [finalEvents] at hf
              rcases hf with rfl | rfl | rfl | rfl | rfl | rfl | rfl | rfl | rfl <;> rfl
            · exact ⟨Event.userCall none ⟨userName, line, "user"⟩, by simp, rfl⟩

/-- In every ping-pong trace, each assistant invocation is preceded by the
console invocation that produced the assistant's input. -/
theorem dialogue_seqOrd (respond : Msg → Except PyError Msg)
    (inputs : List (Except PyError String)) (prior : Option Msg) :
    SeqOrd assistantInput userOutput (dialogueLoopE respond inputs prior).1 := by
  induction inputs generalizing prior with
  | nil =>
    apply seqOrd_of_no_late
    intro f hf
    simp [dialogueLoopE] at hf
  | cons i rest ih =>
    match i with
    | Except.error e =>
      apply seqOrd_of_no_late
      intro f hf
      rcases prior with _ | p <;> simp [dialogueLoopE] at hf
      subst hf
      rfl
    | Except.ok line =>
      by_cases hl : line = "exit"
      · subst hl
        apply seqOrd_of_no_late
        intro f hf
        rcases prior with _ | p
        · simp [dialogueLoopE, userTurn] at hf
          rcases hf with rfl | rfl <;> rfl
        · simp [dialogueLoopE, userTurn] at hf
          rcases hf with rfl | rfl | rfl <;> rfl
      · rcases hr : respond ⟨userName, line, "user"⟩ with e | resp
        · apply seqOrd_of_no_late
          intro f hf
          rcases prior with _ | p
          · simp [dialogueLoopE, userTurn, hl, hr] at hf
            subst hf
            rfl
          · simp [dialogueLoopE, userTurn, hl, hr] at hf
            rcases hf with rfl | rfl <;> rfl
        · have htr : (dialogueLoopE respond (Except.ok line :: rest) prior).1 =
              ((userTurn prior line).1 ++
                Event.assistantCall ⟨userName, line, "user"⟩ resp :: []) ++
              (dialogueLoopE respond rest (some resp)).1 := by
            simp [dialogueLoopE, userTurn, hl, hr]
          rw [htr]
          refine seqOrd_append (seqOrd_single ?_ ?_ rfl ?_) (ih (some resp))
          · intro f hf
            rcases prior with _ | p <;> simp [userTurn] at hf
            · subst hf
              rfl
            · rcases hf with rfl | rfl <;> rfl
          · intro f hf
            simp at hf
          · exact ⟨Event.userCall prior ⟨userName, line, "user"⟩, by simp [userTurn], rfl⟩

/-- C7: responder turns execute strictly sequentially in the order written
in the pipeline.  In every sample 4 trace each critic invocation is
preceded by the planner invocation that produced its input and each
planner invocation by the console invocation that produced its input; in
every ping-pong trace each assistant invocation is preceded by the console
invocation that produced its input.  A later turn therefore never starts
before the earlier turn's result is available; the embedded loops are
single sequential reductions, so at most one invocation is ever
outstanding by construction. -/
theorem responder_turns_sequential (planner critic respond : Msg → Except PyError Msg)
    (inputs inputs2 : List (Except PyError String)) (prior : Option Msg) :
    SeqOrd criticInput plannerOutput (relayLoopE planner critic inputs).1 ∧
    SeqOrd plannerInput userOutput (relayLoopE planner critic inputs).1 ∧
    SeqOrd assistantInput userOutput (dialogueLoopE respond inputs2 prior).1 :=
  ⟨relay_seqOrd_critic planner critic inputs, relay_seqOrd_planner planner critic inputs,
   dialogue_seqOrd respond inputs2 prior⟩

/-- Witness for C7: in the concrete one-round relay trace on task "旅行",
the events before the critic invocation contain the planner invocation that
produced the critic's input. -/
theorem responder_turns_sequential_witness :
    ∃ pre1 e1 post1,
      [Event.userCall none (⟨userName, "旅行", "user"⟩ : Msg),
       Event.printLine (requestLine ⟨userName, "旅行", "user"⟩),
       Event.printLine planningLine,
       Event.plannerCall ⟨userName, "旅行", "user"⟩ ⟨"プランナー", "計画:旅行", "assistant"⟩,
       Event.printLine (planLine ⟨"プランナー", "計画:旅行", "assistant"⟩),
       Event.printLine reviewLine] = pre1 ++ e1 :: post1 ∧
      plannerOutput (⟨"プランナー", "計画:旅行", "assistant"⟩ : Msg) e1 :=
  (responder_turns_sequential (okResponder demoPlanner) (okResponder demoCritic)
      (okResponder demoAssistant) [Except.ok "旅行"] [] none).1
    [Event.userCall none ⟨userName, "旅行", "user"⟩,
     Event.printLine (requestLine ⟨userName, "旅行", "user"⟩),
     Event.printLine planningLine,
     Event.plannerCall ⟨userName, "旅行", "user"⟩ ⟨"プランナー", "計画:旅行", "assistant"⟩,
     Event.printLine (planLine ⟨"プランナー", "計画:旅行", "assistant"⟩),
     Event.printLine reviewLine]
    (Event.criticCall ⟨"プランナー", "計画:旅行", "assistant"⟩
      ⟨"クリティック", "批評:計画:旅行", "assistant"⟩)
    (Event.printLine (critiqueLine ⟨"クリティック", "批評:計画:旅行", "assistant"⟩) ::
      finalEvents ⟨"プランナー", "計画:旅行", "assistant"⟩
        ⟨"クリティック", "批評:計画:旅行", "assistant"⟩)
    ⟨"プランナー", "計画:旅行", "assistant"⟩ (by decide) rfl
